import Mathlib

/-!
Shallow embedding of the ad-library data pipeline's record-transformation
core (normalize / enrich / rank stages and their transform utilities),
together with theorems settling the specification's claims about it.

Python floats are modelled as exact rationals (`ℚ`); for every value the
claims touch (integer hours, minutes divided by 60, fixed decimal
multipliers) the double-precision computation agrees with the rational one,
since no intermediate value comes within rounding distance of a tie.
Python dictionaries are modelled as structures whose optional fields encode
`dict.get` defaults; file-system reads are modelled as `Option` (absent
file) and per-line deserialization outcomes as explicit sum types.
-/

namespace AdPipeline

/-- Python `round(x, 2)` modelled on exact rationals: the integer nearest to
`x * 100`, ties going to the even integer (banker's rounding), divided by 100. -/
def roundHalfEven2 (x : ℚ) : ℤ :=
  let n : ℤ := ⌊x * 100⌋
  let r : ℚ := x * 100 - n
  if r < 1 / 2 then n
  else if 1 / 2 < r then n + 1
  else if n % 2 = 0 then n else n + 1

/-- Round a rational to two decimal places, Python-`round` style. -/
def pyRound2 (x : ℚ) : ℚ := (roundHalfEven2 x : ℚ) / 100

/-- Numeric value of one ASCII digit character. -/
def digitVal (c : Char) : ℕ := c.toNat - '0'.toNat

/-- Value of a digit string, as Python `int(...)` computes it on the
captured group of consecutive digits. -/
def digitsVal (ds : List Char) : ℕ :=
  ds.foldl (fun a c => 10 * a + digitVal c) 0

/-- Case-insensitive match of the literal token `tok` (given in lowercase)
at the start of `cs`; models the literal tail of the regex after `\d+\s*`
under `re.IGNORECASE`.  The optional trailing `s?` of the patterns never
constrains a match, so it does not appear. -/
def matchToken : List Char → List Char → Bool
  | [], _ => true
  | _ :: _, [] => false
  | t :: ts, c :: cs => c.toLower == t && matchToken ts cs

/-- Leftmost unanchored search for `(\d+)\s*tok`, as `re.search` performs it,
returning the captured digit run's value.  The scan walks left to right; at a
digit it takes the maximal digit run, skips whitespace, and tests the literal
token; on failure the scan continues one position to the right.  (The regex
engine cannot backtrack into `\d+` or `\s*` here: the character after a
shortened run would be a digit or whitespace, never the token's letter.) -/
def matchNumTok (tok : List Char) : List Char → Option ℕ
  | [] => none
  | c :: cs =>
    if c.isDigit then
      if matchToken tok (((c :: cs).dropWhile Char.isDigit).dropWhile Char.isWhitespace) then
        some (digitsVal ((c :: cs).takeWhile Char.isDigit))
      else matchNumTok tok cs
    else matchNumTok tok cs

/-- Model of `parse_duration` (src/utils/enricher.py): empty or absent text
gives 0.0; otherwise the text is searched independently for `(\d+)\s*hrs?`
and `(\d+)\s*mins?` (case-insensitive), a missing quantity contributing 0,
and the result is `round(hours + minutes / 60.0, 2)`. -/
def parse_duration : Option String → ℚ
  | none => 0
  | some t =>
    if t.data = [] then 0
    else
      pyRound2 (((matchNumTok ['h', 'r'] t.data).getD 0 : ℚ) +
        ((matchNumTok ['m', 'i', 'n'] t.data).getD 0 : ℚ) / 60)

/-- Model of `get_media_type` (src/utils/enricher.py): an absent or empty
list is "none"; otherwise only set-membership of the literal tags "image"
and "video" decides the category. -/
def get_media_type : Option (List String) → String
  | none => "none"
  | some media_list =>
    if media_list = [] then "none"
    else if "image" ∈ media_list ∧ "video" ∈ media_list then "both"
    else if "image" ∈ media_list then "image-only"
    else if "video" ∈ media_list then "video-only"
    else "none"

/-- Model of `detect_language` (src/utils/enricher.py).  The external
langdetect capability is a parameter returning either a code or a failure;
the wrapper short-circuits empty / whitespace-only text and maps every
failure to "unknown". -/
def detect_language (detect : String → Except Unit String) (text : String) : String :=
  if text.trim = "" then "unknown"
  else
    match detect text with
    | .ok code => code
    | .error _ => "unknown"

/-- A Python ad dict, restricted to the keys `proxy_score` reads; an absent
key is `none`. -/
structure Ad where
  duration_hours : Option ℚ := none
  media_type : Option String := none
deriving DecidableEq

/-- Model of the `media_multipliers` dict lookup inside `proxy_score`
(src/utils/ranker.py): `dict.get(media_type, 1.0)` with the fixed table. -/
def media_multipliers (m : String) : Option ℚ :=
  if m = "both" then some (12 / 10)
  else if m = "video-only" then some (11 / 10)
  else if m = "image-only" then some 1
  else if m = "none" then some (1 / 2)
  else none

/-- Model of `proxy_score` (src/utils/ranker.py):
`ad.get("duration_hours", 0.0) * media_multipliers.get(str(ad.get("media_type", "none")), 1.0)`. -/
def proxy_score (ad : Ad) : ℚ :=
  (ad.duration_hours.getD 0) * (media_multipliers (ad.media_type.getD "none")).getD 1

/-- Ordering key of the ranker's sort: `a` precedes `b` when `a`'s score is
at least `b`'s. -/
def scoreGE (a b : Ad) : Prop := proxy_score b ≤ proxy_score a

instance : DecidableRel scoreGE :=
  fun a b => inferInstanceAs (Decidable (proxy_score b ≤ proxy_score a))

instance : IsTotal Ad scoreGE := ⟨fun a b => le_total (proxy_score b) (proxy_score a)⟩

instance : IsTrans Ad scoreGE := ⟨fun _ _ _ h₁ h₂ => le_trans h₂ h₁⟩

/-- Model of `top_10_ads` (src/utils/ranker.py): Python's
`sorted(ads_list, key=proxy_score, reverse=True)[:10]` is a stable
descending sort by score truncated to ten elements; a stable sort is
uniquely determined by the (score, input position) order, so the stable
insertion sort below produces the same list as Python's stable sort. -/
def top_10_ads (ads_list : List Ad) : List Ad :=
  if ads_list = [] then []
  else (ads_list.insertionSort scoreGE).take 10

/-- A JSON-like value, the codomain of `model_dump` fields.  Timestamps are
abstract (`time`), since `datetime.now()` is a run parameter of the model. -/
inductive JVal where
  | s (v : String)
  | jnull
  | arr (v : List String)
  | num (v : ℚ)
  | time (v : ℕ)
deriving DecidableEq

/-- Dump of an optional string field (`None` or a string). -/
def jopt : Option String → JVal
  | none => .jnull
  | some v => .s v

/-- Model of `AdNormalizedSchema` (src/schemas/ads.py); `normalized_at` is
the abstract timestamp taken at construction. -/
structure AdNormalized where
  ad_id : String
  ad_text : String
  active : Option String
  media : List String
  country : String
  normalized_at : ℕ
deriving DecidableEq

/-- Model of `AdEnrichedSchema` (src/schemas/ads.py).  Its fields are the
declared fields of the Pydantic model: note it has `enriched_at` but no
`normalized_at`. -/
structure AdEnriched where
  ad_id : String
  ad_text : String
  active : Option String
  media : List String
  country : String
  duration_hours : ℚ
  media_type : String
  language : String
  enriched_at : ℕ
deriving DecidableEq

/-- Association-list view of `AdNormalizedSchema(...).model_dump()`. -/
def AdNormalized.dump (r : AdNormalized) : List (String × JVal) :=
  [("ad_id", .s r.ad_id), ("ad_text", .s r.ad_text), ("active", jopt r.active),
   ("media", .arr r.media), ("country", .s r.country),
   ("normalized_at", .time r.normalized_at)]

/-- Association-list view of `AdEnrichedSchema(...).model_dump()`. -/
def AdEnriched.dump (r : AdEnriched) : List (String × JVal) :=
  [("ad_id", .s r.ad_id), ("ad_text", .s r.ad_text), ("active", jopt r.active),
   ("media", .arr r.media), ("country", .s r.country),
   ("duration_hours", .num r.duration_hours), ("media_type", .s r.media_type),
   ("language", .s r.language), ("enriched_at", .time r.enriched_at)]

/-- Model of `_enrich_single_record` (src/enrich/enrich_ads.py): copies
`ad_id`, `ad_text`, `active`, `media`, `country` from the normalized record
and adds the derived fields; `enriched_at` is the schema's construction-time
default.  The constructor call passes no `normalized_at` (the enriched
schema has no such field). -/
def _enrich_single_record (detect : String → Except Unit String) (now : ℕ)
    (normalized_ad : AdNormalized) : AdEnriched :=
  { ad_id := normalized_ad.ad_id
    ad_text := normalized_ad.ad_text
    active := normalized_ad.active
    media := normalized_ad.media
    country := normalized_ad.country
    duration_hours := parse_duration normalized_ad.active
    media_type := get_media_type (some normalized_ad.media)
    language := detect_language detect normalized_ad.ad_text
    enriched_at := now }

/-- The `raw_data` payload dict of a raw line, restricted to the keys the
normalizers read; an absent key is `none`. -/
structure RawData where
  ad_id : Option String := none
  ad_text : Option String := none
  active : Option String := none
  media : Option (List String) := none
  country : Option String := none
  id : Option String := none
  ad_creative_body : Option String := none
deriving DecidableEq

/-- Outcome of `json.loads` on one raw input line: either the line is
malformed (a `JSONDecodeError`), or it is a record dict whose `source` and
`raw_data` keys may each be absent. -/
inductive RawLine where
  | malformed
  | record (source : Option String) (raw_data : Option RawData)
deriving DecidableEq

/-- Statistics pair a stage accumulates; the Python dict's keys are
`processed`/`skipped` in normalize and `processed`/`errors` in enrich and
rank, with the same meaning. -/
structure Stats where
  processed : ℕ
  skipped : ℕ
deriving DecidableEq

/-- Model of `_normalize_mock_record` (src/normalize/normalize_ads.py). -/
def _normalize_mock_record (now : ℕ) (raw_data : RawData) : AdNormalized :=
  { ad_id := raw_data.ad_id.getD ""
    ad_text := raw_data.ad_text.getD ""
    active := raw_data.active
    media := raw_data.media.getD []
    country := raw_data.country.getD ""
    normalized_at := now }

/-- Model of `_normalize_api_record` (src/normalize/normalize_ads.py). -/
def _normalize_api_record (now : ℕ) (raw_data : RawData) : AdNormalized :=
  { ad_id := raw_data.id.getD ""
    ad_text := raw_data.ad_creative_body.getD ""
    active := none
    media := []
    country := "US"
    normalized_at := now }

/-- Model of `_normalize_single_record` (src/normalize/normalize_ads.py):
dispatch on the source discriminant; any source other than "mock"/"api"
yields `none` (the record is skipped). -/
def _normalize_single_record (now : ℕ) (source : String) (raw_data : RawData) :
    Option AdNormalized :=
  if source = "mock" then some (_normalize_mock_record now raw_data)
  else if source = "api" then some (_normalize_api_record now raw_data)
  else none

/-- Per-line outcome of the normalize stage: a malformed line is counted as
skipped (the `JSONDecodeError` handler); otherwise
`raw_record.get("source", "unknown")` and `raw_record.get("raw_data", {})`
feed `_normalize_single_record`. -/
def normLineOf (now : ℕ) : RawLine → Option AdNormalized
  | .malformed => none
  | .record source raw_data =>
    _normalize_single_record now (source.getD "unknown") (raw_data.getD {})

/-- Model of `_process_raw_data` (src/normalize/normalize_ads.py): each line
either contributes its normalized record (counted processed) or is counted
skipped; a bad line never aborts the loop. -/
def _process_raw_data (now : ℕ) : List RawLine → List AdNormalized × Stats
  | [] => ([], ⟨0, 0⟩)
  | l :: ls =>
    let rest := _process_raw_data now ls
    match normLineOf now l with
    | some r => (r :: rest.1, ⟨rest.2.processed + 1, rest.2.skipped⟩)
    | none => (rest.1, ⟨rest.2.processed, rest.2.skipped + 1⟩)

/-- Outcome of `AdNormalizedSchema(**json.loads(line))` on one input line of
the enrich stage: a JSON or schema-validation failure, or a valid record. -/
inductive NormLine where
  | malformed
  | record (r : AdNormalized)
deriving DecidableEq

/-- Model of `_process_normalized_data` (src/enrich/enrich_ads.py).  A valid
line is always enriched and appended (`_enrich_single_record` is total and a
model dump is never falsy); an invalid line is counted as an error. -/
def _process_normalized_data (detect : String → Except Unit String) (now : ℕ) :
    List NormLine → List AdEnriched × Stats
  | [] => ([], ⟨0, 0⟩)
  | l :: ls =>
    let rest := _process_normalized_data detect now ls
    match l with
    | .malformed => (rest.1, ⟨rest.2.processed, rest.2.skipped + 1⟩)
    | .record r =>
      (_enrich_single_record detect now r :: rest.1,
       ⟨rest.2.processed + 1, rest.2.skipped⟩)

/-- Outcome of `AdEnrichedSchema(**json.loads(line))` on one input line of
the rank stage. -/
inductive EnrichLine where
  | malformed
  | record (r : AdEnriched)
deriving DecidableEq

/-- Model of `_load_enriched_ads` (src/rank/rank_ads.py).  Each validated
dict is kept as its score-relevant projection (the only fields consulted by
ranking and by the stage's empty-buffer branch). -/
def _load_enriched_ads : List EnrichLine → List Ad × Stats
  | [] => ([], ⟨0, 0⟩)
  | l :: ls =>
    let rest := _load_enriched_ads ls
    match l with
    | .malformed => (rest.1, ⟨rest.2.processed, rest.2.skipped + 1⟩)
    | .record r =>
      (⟨some r.duration_hours, some r.media_type⟩ :: rest.1,
       ⟨rest.2.processed + 1, rest.2.skipped⟩)

/-- The fatal condition a stage function can raise: the input file is
absent at stage start (`FileNotFoundError`). -/
inductive StageError where
  | fileNotFound
deriving DecidableEq

/-- Result of a successful stage run: the records serialized to the output
path (`none` when the stage returned without writing a file) and the
processing statistics. -/
structure StageOutcome (α : Type) where
  written : Option (List α)
  stats : Stats
deriving DecidableEq

/-- Model of `normalize_ads` (src/normalize/normalize_ads.py): an absent
input file raises `FileNotFoundError`; otherwise the whole (possibly empty)
buffer is written to the output path and the path returned. -/
def normalize_ads (now : ℕ) (input : Option (List RawLine)) :
    Except StageError (StageOutcome AdNormalized) :=
  match input with
  | none => .error .fileNotFound
  | some lines =>
    let r := _process_raw_data now lines
    .ok ⟨some r.1, r.2⟩

/-- Model of `enrich_ads` (src/enrich/enrich_ads.py): same runner shape as
`normalize_ads`. -/
def enrich_ads (detect : String → Except Unit String) (now : ℕ)
    (input : Option (List NormLine)) : Except StageError (StageOutcome AdEnriched) :=
  match input with
  | none => .error .fileNotFound
  | some lines =>
    let r := _process_normalized_data detect now lines
    .ok ⟨some r.1, r.2⟩

/-- Model of `rank_ads` (src/rank/rank_ads.py): an absent input file raises;
when no valid ads were loaded the function returns the output path early
WITHOUT writing a CSV; otherwise the top-10 list is written. -/
def rank_ads (input : Option (List EnrichLine)) :
    Except StageError (StageOutcome Ad) :=
  match input with
  | none => .error .fileNotFound
  | some lines =>
    let r := _load_enriched_ads lines
    if r.1 = [] then .ok ⟨none, r.2⟩
    else .ok ⟨some (top_10_ads r.1), r.2⟩

/-- A raw input line is well-formed when it parsed as a record whose source
discriminant is "mock" or "api"; every other line (malformed JSON, absent or
unknown source) is per-record-bad. -/
def goodLine : RawLine → Bool
  | .malformed => false
  | .record source _ => source.getD "unknown" == "mock" || source.getD "unknown" == "api"

/-! Helper lemmas shared by several claims. -/

/-- Evaluation form of `parse_duration` on non-empty text. -/
theorem parse_duration_some_eq (t : String) (ht : ¬ t.data = []) :
    parse_duration (some t) =
      pyRound2 (((matchNumTok ['h', 'r'] t.data).getD 0 : ℚ) +
        ((matchNumTok ['m', 'i', 'n'] t.data).getD 0 : ℚ) / 60) := by
  simp only [parse_duration, if_neg ht]

/-- Case-split-free characterization of `get_media_type` on non-empty lists. -/
theorem get_media_type_char (l : List String) (hne : ¬ l = []) :
    get_media_type (some l) =
      if "image" ∈ l ∧ "video" ∈ l then "both"
      else if "image" ∈ l then "image-only"
      else if "video" ∈ l then "video-only"
      else "none" := by
  simp only [get_media_type, if_neg hne]

/-- C2: the ranked output has length `min 10 (length input)`, every adjacent
pair is non-increasing in score, and the empty input ranks to the empty
list. -/
theorem top_10_ads_shape (l : List Ad) :
    (top_10_ads l).length = min 10 l.length ∧
    List.Sorted (fun a b => proxy_score b ≤ proxy_score a) (top_10_ads l) ∧
    top_10_ads ([] : List Ad) = [] := by
  refine ⟨?_, ?_, rfl⟩
  · by_cases hl : l = []
    · subst hl; simp [top_10_ads]
    · simp only [top_10_ads, if_neg hl, List.length_take, List.length_insertionSort]
  · by_cases hl : l = []
    · subst hl; simp [top_10_ads]
    · simp only [top_10_ads, if_neg hl]
      exact List.Pairwise.sublist (List.take_sublist 10 _)
        (List.sorted_insertionSort scoreGE l)

/-- C4: media classification depends only on the set of tags; only the
literal tags "image" and "video" decide the category, with the documented
precedence; empty, absent, and only-unrecognized inputs give "none". -/
theorem get_media_type_spec :
    (∀ l₁ l₂ : List String, (∀ x, x ∈ l₁ ↔ x ∈ l₂) →
      get_media_type (some l₁) = get_media_type (some l₂)) ∧
    (∀ l, "image" ∈ l → "video" ∈ l → get_media_type (some l) = "both") ∧
    (∀ l, "image" ∈ l → "video" ∉ l → get_media_type (some l) = "image-only") ∧
    (∀ l, "video" ∈ l → "image" ∉ l → get_media_type (some l) = "video-only") ∧
    (∀ l, "image" ∉ l → "video" ∉ l → get_media_type (some l) = "none") ∧
    get_media_type none = "none" ∧ get_media_type (some []) = "none" := by
  refine ⟨?_, ?_, ?_, ?_, ?_, rfl, rfl⟩
  · intro l₁ l₂ h
    by_cases h1 : l₁ = []
    · subst h1
      cases l₂ with
      | nil => rfl
      | cons a t => exact absurd ((h a).mpr (List.mem_cons_self a t)) (List.not_mem_nil a)
    · have h2 : ¬ l₂ = [] := by
        intro h2
        subst h2
        cases l₁ with
        | nil => exact h1 rfl
        | cons a t => exact absurd ((h a).mp (List.mem_cons_self a t)) (List.not_mem_nil a)
      rw [get_media_type_char l₁ h1, get_media_type_char l₂ h2]
      simp only [propext (h "image"), propext (h "video")]
  · intro l hi hv
    rw [get_media_type_char l (List.ne_nil_of_mem hi), if_pos ⟨hi, hv⟩]
  · intro l hi hv
    rw [get_media_type_char l (List.ne_nil_of_mem hi)]
    simp [hi, hv]
  · intro l hv hi
    rw [get_media_type_char l (List.ne_nil_of_mem hv)]
    simp [hi, hv]
  · intro l hi hv
    by_cases hl : l = []
    · subst hl; rfl
    · rw [get_media_type_char l hl]
      simp [hi, hv]

/-- C4 witness: the classification instances of the spec's concrete tests,
obtained from `get_media_type_spec`. -/
theorem get_media_type_spec_witness :
    get_media_type (some ["video", "image"]) = "both" ∧
    get_media_type (some ["image", "video"]) = "both" ∧
    get_media_type (some ["audio"]) = "none" ∧
    get_media_type (some ["image", "image"]) = "image-only" := by
  refine ⟨?_, ?_, ?_, ?_⟩
  · exact get_media_type_spec.2.1 _ (by decide) (by decide)
  · exact get_media_type_spec.2.1 _ (by decide) (by decide)
  · exact get_media_type_spec.2.2.2.2.1 _ (by decide) (by decide)
  · exact get_media_type_spec.2.2.1 _ (by decide) (by decide)

/-- C5: the score is duration times the fixed media-type multiplier, with
multiplier 1 for unrecognized media types, duration defaulting to 0 when
absent; the concrete spec instances hold exactly. -/
theorem proxy_score_spec :
    (∀ d : ℚ, proxy_score ⟨some d, some "both"⟩ = d * (12 / 10)) ∧
    (∀ d : ℚ, proxy_score ⟨some d, some "video-only"⟩ = d * (11 / 10)) ∧
    (∀ d : ℚ, proxy_score ⟨some d, some "image-only"⟩ = d * 1) ∧
    (∀ d : ℚ, proxy_score ⟨some d, some "none"⟩ = d * (1 / 2)) ∧
    (∀ (d : ℚ) (m : String),
      m ∉ (["both", "video-only", "image-only", "none"] : List String) →
      proxy_score ⟨some d, some m⟩ = d * 1) ∧
    (∀ m : Option String, proxy_score ⟨none, m⟩ = 0) ∧
    proxy_score ⟨some 3, some "video-only"⟩ = 33 / 10 ∧
    |proxy_score ⟨some 3, some "video-only"⟩ - 33 / 10| < 1 / 1000 ∧
    proxy_score ⟨none, none⟩ = 0 := by
  refine ⟨?_, ?_, ?_, ?_, ?_, ?_, ?_, ?_, ?_⟩
  · intro d; simp [proxy_score, media_multipliers]
  · intro d; simp [proxy_score, media_multipliers]
  · intro d; simp [proxy_score, media_multipliers]
  · intro d; simp [proxy_score, media_multipliers]
  · intro d m hm
    simp only [List.mem_cons, List.not_mem_nil, or_false, not_or] at hm
    obtain ⟨h1, h2, h3, h4⟩ := hm
    simp [proxy_score, media_multipliers, h1, h2, h3, h4]
  · intro m; simp [proxy_score]
  · simp [proxy_score, media_multipliers]
    norm_num
  · simp [proxy_score, media_multipliers]
    norm_num
  · simp [proxy_score]

/-- C5 witness: an unrecognized media type ("audio") takes multiplier 1, via
`proxy_score_spec`. -/
theorem proxy_score_spec_witness :
    proxy_score ⟨some 2, some "audio"⟩ = 2 * 1 :=
  proxy_score_spec.2.2.2.2.1 2 "audio" (by decide)

/-- C10: a record lacking the `media_type` key entirely takes the default
string "none" and hence the 0.5 multiplier, not the 1.0 fallback for
unrecognized values. -/
theorem proxy_score_missing_media_type :
    (∀ d : ℚ, proxy_score ⟨some d, none⟩ = d * (1 / 2)) ∧
    proxy_score ⟨some 2, none⟩ = 1 ∧
    ¬ proxy_score ⟨some 2, none⟩ = 2 := by
  refine ⟨?_, ?_, ?_⟩
  · intro d; simp [proxy_score, media_multipliers]
  · simp [proxy_score, media_multipliers]
  · simp [proxy_score, media_multipliers]

/-- A well-formed line always normalizes to a record. -/
theorem normLineOf_of_good (now : ℕ) (l : RawLine) (h : goodLine l = true) :
    ∃ r, normLineOf now l = some r := by
  cases l with
  | malformed => simp [goodLine] at h
  | record source raw_data =>
    simp only [goodLine, Bool.or_eq_true, beq_iff_eq] at h
    rcases h with h | h <;>
      simp [normLineOf, _normalize_single_record, h]

/-- A per-record-bad line normalizes to nothing. -/
theorem normLineOf_of_bad (now : ℕ) (l : RawLine) (h : goodLine l = false) :
    normLineOf now l = none := by
  cases l with
  | malformed => rfl
  | record source raw_data =>
    simp only [goodLine, Bool.or_eq_false_iff, beq_eq_false_iff_ne, ne_eq] at h
    simp [normLineOf, _normalize_single_record, h.1, h.2]

/-- Unfolded step of `_process_raw_data` on a line that normalizes. -/
theorem _process_raw_data_cons_some (now : ℕ) (l : RawLine) (ls : List RawLine)
    (r : AdNormalized) (h : normLineOf now l = some r) :
    _process_raw_data now (l :: ls) =
      (r :: (_process_raw_data now ls).1,
       ⟨(_process_raw_data now ls).2.processed + 1,
        (_process_raw_data now ls).2.skipped⟩) := by
  simp [_process_raw_data, h]

/-- Unfolded step of `_process_raw_data` on a line that is skipped. -/
theorem _process_raw_data_cons_none (now : ℕ) (l : RawLine) (ls : List RawLine)
    (h : normLineOf now l = none) :
    _process_raw_data now (l :: ls) =
      ((_process_raw_data now ls).1,
       ⟨(_process_raw_data now ls).2.processed,
        (_process_raw_data now ls).2.skipped + 1⟩) := by
  simp [_process_raw_data, h]

/-- Processing distributes over concatenation of the input lines. -/
theorem _process_raw_data_append (now : ℕ) (xs ys : List RawLine) :
    _process_raw_data now (xs ++ ys) =
      ((_process_raw_data now xs).1 ++ (_process_raw_data now ys).1,
       ⟨(_process_raw_data now xs).2.processed + (_process_raw_data now ys).2.processed,
        (_process_raw_data now xs).2.skipped + (_process_raw_data now ys).2.skipped⟩) := by
  induction xs with
  | nil => simp [_process_raw_data]
  | cons l ls ih =>
    cases h : normLineOf now l with
    | some r =>
      rw [List.cons_append, _process_raw_data_cons_some now l (ls ++ ys) r h,
        _process_raw_data_cons_some now l ls r h, ih]
      simp [Prod.ext_iff, Stats.mk.injEq]
      omega
    | none =>
      rw [List.cons_append, _process_raw_data_cons_none now l (ls ++ ys) h,
        _process_raw_data_cons_none now l ls h, ih]
      simp [Prod.ext_iff, Stats.mk.injEq]
      omega

/-- A batch of well-formed lines is fully processed: one output record per
line, nothing skipped. -/
theorem _process_raw_data_all_good (now : ℕ) (xs : List RawLine)
    (h : ∀ l ∈ xs, goodLine l = true) :
    (_process_raw_data now xs).2 = ⟨xs.length, 0⟩ ∧
    (_process_raw_data now xs).1.length = xs.length := by
  induction xs with
  | nil => exact ⟨rfl, rfl⟩
  | cons l ls ih =>
    obtain ⟨r, hr⟩ := normLineOf_of_good now l (h l (List.mem_cons_self l ls))
    have ihs := ih (fun x hx => h x (List.mem_cons_of_mem l hx))
    rw [_process_raw_data_cons_some now l ls r hr]
    exact ⟨by simp [ihs.1], by simp [ihs.2]⟩

/-- C1: inserting one per-record-bad line anywhere in a batch of N
well-formed lines leaves statistics processed = N and skipped = 1, and the
accumulated output is exactly the N records the well-formed lines produce. -/
theorem process_raw_data_fault_isolation (now : ℕ) (pre suf : List RawLine)
    (bad : RawLine) (hpre : ∀ l ∈ pre, goodLine l = true)
    (hsuf : ∀ l ∈ suf, goodLine l = true) (hbad : goodLine bad = false) :
    (_process_raw_data now (pre ++ bad :: suf)).2 = ⟨(pre ++ suf).length, 1⟩ ∧
    (_process_raw_data now (pre ++ bad :: suf)).1 =
      (_process_raw_data now (pre ++ suf)).1 ∧
    (_process_raw_data now (pre ++ suf)).1.length = (pre ++ suf).length := by
  have hb := normLineOf_of_bad now bad hbad
  have hgood : ∀ l ∈ pre ++ suf, goodLine l = true := by
    intro l hl
    rcases List.mem_append.mp hl with hl | hl
    · exact hpre l hl
    · exact hsuf l hl
  have hbadsuf : _process_raw_data now (bad :: suf) =
      ((_process_raw_data now suf).1,
       ⟨(_process_raw_data now suf).2.processed,
        (_process_raw_data now suf).2.skipped + 1⟩) := by
    simp [_process_raw_data, hb]
  have e1 := _process_raw_data_append now pre (bad :: suf)
  have e2 := _process_raw_data_append now pre suf
  have hp := (_process_raw_data_all_good now pre hpre).1
  have hs := (_process_raw_data_all_good now suf hsuf).1
  have hps := _process_raw_data_all_good now (pre ++ suf) hgood
  refine ⟨?_, ?_, hps.2⟩
  · rw [e1, hbadsuf]
    simp [hp, hs, List.length_append]
  · rw [e1, hbadsuf, e2]

/-- C1 witness: a mock record and an api record around one malformed line
give processed = 2, skipped = 1 and the two normalized records. -/
theorem process_raw_data_fault_isolation_witness :
    (_process_raw_data 0
        ([RawLine.record (some "mock") (some { ad_id := some "a1" })] ++
          RawLine.malformed :: [RawLine.record (some "api") none])).2 = ⟨2, 1⟩ ∧
    (_process_raw_data 0
        ([RawLine.record (some "mock") (some { ad_id := some "a1" })] ++
          RawLine.malformed :: [RawLine.record (some "api") none])).1 =
      (_process_raw_data 0
        ([RawLine.record (some "mock") (some { ad_id := some "a1" })] ++
          [RawLine.record (some "api") none])).1 := by
  have h := process_raw_data_fault_isolation 0
    [RawLine.record (some "mock") (some { ad_id := some "a1" })]
    [RawLine.record (some "api") none] RawLine.malformed
    (by decide) (by decide) rfl
  exact ⟨h.1, h.2.1⟩

/-- Per-record outcomes of the enrich stage are all counted. -/
theorem _process_normalized_data_stats_sum (detect : String → Except Unit String)
    (now : ℕ) (lines : List NormLine) :
    (_process_normalized_data detect now lines).2.processed +
      (_process_normalized_data detect now lines).2.skipped = lines.length := by
  induction lines with
  | nil => rfl
  | cons l ls ih =>
    cases l <;> simp only [_process_normalized_data, List.length_cons] <;> omega

/-- Per-record outcomes of the normalize stage are all counted. -/
theorem _process_raw_data_stats_sum (now : ℕ) (lines : List RawLine) :
    (_process_raw_data now lines).2.processed +
      (_process_raw_data now lines).2.skipped = lines.length := by
  induction lines with
  | nil => rfl
  | cons l ls ih =>
    cases h : normLineOf now l <;>
      simp only [_process_raw_data, h, List.length_cons] <;> omega

/-- Per-record outcomes of the rank stage's loader are all counted. -/
theorem _load_enriched_ads_stats_sum (lines : List EnrichLine) :
    (_load_enriched_ads lines).2.processed +
      (_load_enriched_ads lines).2.skipped = lines.length := by
  induction lines with
  | nil => rfl
  | cons l ls ih =>
    cases l <;> simp only [_load_enriched_ads, List.length_cons] <;> omega

/-- C7: each stage function fails exactly when its input file is absent;
with a present input file it returns successfully, every per-record failure
appearing only in the (processed, skipped) statistics, which account for
every input line. -/
theorem stage_raises_iff_fatal (detect : String → Except Unit String) (now : ℕ) :
    (∀ input, (∃ e, normalize_ads now input = .error e) ↔ input = none) ∧
    (∀ input, (∃ e, enrich_ads detect now input = .error e) ↔ input = none) ∧
    (∀ input, (∃ e, rank_ads input = .error e) ↔ input = none) ∧
    (∀ lines, ∃ o, normalize_ads now (some lines) = .ok o ∧
      o.stats.processed + o.stats.skipped = lines.length) ∧
    (∀ lines, ∃ o, enrich_ads detect now (some lines) = .ok o ∧
      o.stats.processed + o.stats.skipped = lines.length) ∧
    (∀ lines, ∃ o, rank_ads (some lines) = .ok o ∧
      o.stats.processed + o.stats.skipped = lines.length) := by
  refine ⟨?_, ?_, ?_, ?_, ?_, ?_⟩
  · intro input
    cases input with
    | none => exact ⟨fun _ => rfl, fun _ => ⟨.fileNotFound, rfl⟩⟩
    | some lines => simp [normalize_ads]
  · intro input
    cases input with
    | none => exact ⟨fun _ => rfl, fun _ => ⟨.fileNotFound, rfl⟩⟩
    | some lines => simp [enrich_ads]
  · intro input
    cases input with
    | none => exact ⟨fun _ => rfl, fun _ => ⟨.fileNotFound, rfl⟩⟩
    | some lines =>
      by_cases h : (_load_enriched_ads lines).1 = [] <;> simp [rank_ads, h]
  · intro lines
    exact ⟨_, rfl, _process_raw_data_stats_sum now lines⟩
  · intro lines
    exact ⟨_, rfl, _process_normalized_data_stats_sum detect now lines⟩
  · intro lines
    by_cases h : (_load_enriched_ads lines).1 = []
    · refine ⟨⟨none, (_load_enriched_ads lines).2⟩, ?_,
        _load_enriched_ads_stats_sum lines⟩
      simp [rank_ads, h]
    · refine ⟨⟨some (top_10_ads (_load_enriched_ads lines).1),
        (_load_enriched_ads lines).2⟩, ?_, _load_enriched_ads_stats_sum lines⟩
      simp [rank_ads, h]

/-- C7 witness: an absent input file makes the normalize stage raise, via
`stage_raises_iff_fatal`. -/
theorem stage_raises_iff_fatal_witness :
    ∃ e, normalize_ads 0 none = .error e :=
  ((stage_raises_iff_fatal (fun _ => .error ()) 0).1 none).mpr rfl

/-- C8 (amended): the normalize and enrich stages serialize their whole
(possibly empty) buffer on every successful run, but the rank stage writes
its output file only when at least one valid record was loaded — on an
empty buffer it returns the output path without writing. -/
theorem stage_write_policy (detect : String → Except Unit String) (now : ℕ) :
    (∀ lines o, normalize_ads now (some lines) = .ok o →
      o.written = some (_process_raw_data now lines).1) ∧
    (∀ lines o, enrich_ads detect now (some lines) = .ok o →
      o.written = some (_process_normalized_data detect now lines).1) ∧
    (∀ lines o, rank_ads (some lines) = .ok o →
      ((_load_enriched_ads lines).1 = [] → o.written = none) ∧
      (¬ (_load_enriched_ads lines).1 = [] →
        o.written = some (top_10_ads (_load_enriched_ads lines).1))) := by
  refine ⟨?_, ?_, ?_⟩
  · intro lines o h
    simp only [normalize_ads, Except.ok.injEq] at h
    rw [← h]
  · intro lines o h
    simp only [enrich_ads, Except.ok.injEq] at h
    rw [← h]
  · intro lines o h
    by_cases he : (_load_enriched_ads lines).1 = []
    · simp only [rank_ads, if_pos he, Except.ok.injEq] at h
      rw [← h]
      exact ⟨fun _ => rfl, fun hne => absurd he hne⟩
    · simp only [rank_ads, if_neg he, Except.ok.injEq] at h
      rw [← h]
      exact ⟨fun h2 => absurd h2 he, fun _ => rfl⟩

/-- C8 counterexample: on an input whose buffer loads empty, the rank stage
run succeeds yet writes no output file, so the output file does not exist
after this successful run. -/
theorem rank_ads_empty_no_write :
    rank_ads (some []) = .ok ⟨none, ⟨0, 0⟩⟩ := rfl

/-- C8 witness: the normalize stage writes its buffer even when the buffer
is empty, via `stage_write_policy`. -/
theorem stage_write_policy_witness :
    (⟨some [], ⟨0, 0⟩⟩ : StageOutcome AdNormalized).written =
      some (_process_raw_data 0 []).1 :=
  (stage_write_policy (fun _ => .error ()) 0).1 [] _ rfl

/-- C9 (amended): the enriched record carries the normalized record's
`ad_id`, `ad_text`, `active`, `media` and `country` unchanged plus the
derived `duration_hours`, `media_type`, `language` and `enriched_at`, but
the `normalized_at` timestamp is dropped: the enriched schema has no such
field. -/
theorem enrich_record_fields (detect : String → Except Unit String) (now : ℕ)
    (r : AdNormalized) :
    (_enrich_single_record detect now r).dump =
      [("ad_id", .s r.ad_id), ("ad_text", .s r.ad_text), ("active", jopt r.active),
       ("media", .arr r.media), ("country", .s r.country),
       ("duration_hours", .num (parse_duration r.active)),
       ("media_type", .s (get_media_type (some r.media))),
       ("language", .s (detect_language detect r.ad_text)),
       ("enriched_at", .time now)] ∧
    ∀ v, ("normalized_at", v) ∉ (_enrich_single_record detect now r).dump := by
  refine ⟨rfl, ?_⟩
  intro v hv
  simp [AdEnriched.dump, _enrich_single_record, Prod.ext_iff] at hv

/-- C9 counterexample: a concrete normalized record whose dump carries
`normalized_at`, while the enriched record produced from it does not carry
that field with its value — the claim's "every field unchanged, including
normalized_at" fails. -/
theorem enrich_drops_normalized_at :
    ("normalized_at", JVal.time 7) ∈
      (AdNormalized.mk "a1" "hello" (some "2 hrs") ["image"] "US" 7).dump ∧
    ("normalized_at", JVal.time 7) ∉
      (_enrich_single_record (fun _ => .ok "en") 9
        (AdNormalized.mk "a1" "hello" (some "2 hrs") ["image"] "US" 7)).dump := by
  constructor
  · decide
  · intro hv
    simp [AdEnriched.dump, _enrich_single_record, Prod.ext_iff] at hv

/-- C9 witness: the copied and derived fields at a concrete record, via
`enrich_record_fields`. -/
theorem enrich_record_fields_witness :
    ("ad_id", JVal.s "a1") ∈
      (_enrich_single_record (fun _ => .ok "en") 9
        (AdNormalized.mk "a1" "hello" (some "2 hrs") ["image"] "US" 7)).dump := by
  rw [(enrich_record_fields (fun _ => .ok "en") 9
    (AdNormalized.mk "a1" "hello" (some "2 hrs") ["image"] "US" 7)).1]
  simp

/-! Scan lemmas for the duration-parsing regex model. -/

/-- The scan steps over a non-digit character. -/
theorem matchNumTok_cons_not_digit (tok : List Char) (c : Char) (cs : List Char)
    (h : c.isDigit = false) :
    matchNumTok tok (c :: cs) = matchNumTok tok cs := by
  simp [matchNumTok, h]

/-- The scan steps over a block of non-digit characters. -/
theorem matchNumTok_skip_block (tok p cs : List Char)
    (h : ∀ c ∈ p, c.isDigit = false) :
    matchNumTok tok (p ++ cs) = matchNumTok tok cs := by
  induction p with
  | nil => rfl
  | cons c p ih =>
    rw [List.cons_append,
      matchNumTok_cons_not_digit tok c _ (h c (List.mem_cons_self c p)),
      ih (fun x hx => h x (List.mem_cons_of_mem c hx))]

/-- Splitting a digit run followed by a non-digit boundary. -/
theorem takeWhile_digit_run (run rest : List Char)
    (hrun : ∀ c ∈ run, c.isDigit = true)
    (hrest : ∀ c ∈ rest.head?, c.isDigit = false) :
    (run ++ rest).takeWhile Char.isDigit = run ∧
    (run ++ rest).dropWhile Char.isDigit = rest := by
  induction run with
  | nil =>
    cases rest with
    | nil => exact ⟨rfl, rfl⟩
    | cons r rs =>
      have hr : r.isDigit = false := hrest r (by simp)
      constructor
      · simp [List.takeWhile_cons, hr]
      · simp [List.dropWhile_cons, hr]
  | cons c run ih =>
    have hc : c.isDigit = true := hrun c (List.mem_cons_self c run)
    have ihs := ih (fun x hx => hrun x (List.mem_cons_of_mem c hx))
    constructor
    · rw [List.cons_append, List.takeWhile_cons, if_pos hc, ihs.1]
    · rw [List.cons_append, List.dropWhile_cons, if_pos hc, ihs.2]

/-- At a maximal digit run whose following text matches the token, the scan
captures exactly that run. -/
theorem matchNumTok_run_found (tok run rest : List Char) (hne : ¬ run = [])
    (hrun : ∀ c ∈ run, c.isDigit = true)
    (hrest : ∀ c ∈ rest.head?, c.isDigit = false)
    (htok : matchToken tok (rest.dropWhile Char.isWhitespace) = true) :
    matchNumTok tok (run ++ rest) = some (digitsVal run) := by
  cases run with
  | nil => exact absurd rfl hne
  | cons c run =>
    have hd := takeWhile_digit_run (c :: run) rest hrun hrest
    have hc : c.isDigit = true := hrun c (List.mem_cons_self c run)
    rw [List.cons_append, matchNumTok, if_pos hc, ← List.cons_append,
      hd.1, hd.2, if_pos htok]

/-- At a digit run whose following text does not match the token, the scan
exits the run without capturing. -/
theorem matchNumTok_run_skip (tok run rest : List Char)
    (hrun : ∀ c ∈ run, c.isDigit = true)
    (hrest : ∀ c ∈ rest.head?, c.isDigit = false)
    (htok : matchToken tok (rest.dropWhile Char.isWhitespace) = false) :
    matchNumTok tok (run ++ rest) = matchNumTok tok rest := by
  induction run with
  | nil => rfl
  | cons c run ih =>
    have hd := takeWhile_digit_run (c :: run) rest hrun hrest
    have hc : c.isDigit = true := hrun c (List.mem_cons_self c run)
    rw [List.cons_append, matchNumTok, if_pos hc, ← List.cons_append, hd.2,
      if_neg (by simp [htok]),
      ih (fun x hx => hrun x (List.mem_cons_of_mem c hx))]

/-- Unfolding of `matchToken` on cons cells. -/
theorem matchToken_cons (t : Char) (ts : List Char) (c : Char) (cs : List Char) :
    matchToken (t :: ts) (c :: cs) = (c.toLower == t && matchToken ts cs) := rfl

/-- A token fails on a first character that does not match it. -/
theorem matchToken_false_head (t : Char) (ts : List Char) (c : Char)
    (cs : List Char) (h : (c.toLower == t) = false) :
    matchToken (t :: ts) (c :: cs) = false := by
  rw [matchToken_cons, h, Bool.false_and]

/-- The token "hr" matches any text beginning "hr". -/
theorem matchToken_hr (X : List Char) :
    matchToken ['h', 'r'] ('h' :: 'r' :: X) = true := by
  rw [matchToken_cons, matchToken_cons,
    show ('h'.toLower == 'h') = true from by decide,
    show ('r'.toLower == 'r') = true from by decide]
  rfl

/-- The token "min" matches any text beginning "min" — including the full
word "minutes". -/
theorem matchToken_min (X : List Char) :
    matchToken ['m', 'i', 'n'] ('m' :: 'i' :: 'n' :: X) = true := by
  rw [matchToken_cons, matchToken_cons, matchToken_cons,
    show ('m'.toLower == 'm') = true from by decide,
    show ('i'.toLower == 'i') = true from by decide,
    show ('n'.toLower == 'n') = true from by decide]
  rfl

/-- The token "hr" fails on text beginning "ho" — in particular on the full
word "hours". -/
theorem matchToken_hr_ho (X : List Char) :
    matchToken ['h', 'r'] ('h' :: 'o' :: X) = false := by
  rw [matchToken_cons, show ('h'.toLower == 'h') = true from by decide,
    Bool.true_and]
  exact matchToken_false_head 'r' [] 'o' X (by decide)

/-- Whitespace skipping steps over a space. -/
theorem dropWhile_ws_space (X : List Char) :
    List.dropWhile Char.isWhitespace (' ' :: X) =
      List.dropWhile Char.isWhitespace X := by
  rw [List.dropWhile_cons, if_pos (by decide)]

/-- Whitespace skipping stops at a non-whitespace character. -/
theorem dropWhile_ws_stop (c : Char) (X : List Char) (h : c.isWhitespace = false) :
    List.dropWhile Char.isWhitespace (c :: X) = c :: X := by
  rw [List.dropWhile_cons, if_neg (by simp [h])]

/-- The hours search captures a digit run directly followed by " hr". -/
theorem matchNumTok_hr_after_digits (dx T : List Char) (hne : ¬ dx = [])
    (hdig : ∀ c ∈ dx, c.isDigit = true) :
    matchNumTok ['h', 'r'] (dx ++ ' ' :: 'h' :: 'r' :: T) = some (digitsVal dx) := by
  apply matchNumTok_run_found _ _ _ hne hdig
  · intro c hc
    simp only [List.head?_cons, Option.mem_some_iff] at hc
    rw [← hc]
    decide
  · rw [dropWhile_ws_space, dropWhile_ws_stop 'h' _ (by decide)]
    exact matchToken_hr _

/-- The minutes search captures a digit run directly followed by " min". -/
theorem matchNumTok_min_after_digits (dy T : List Char) (hne : ¬ dy = [])
    (hdig : ∀ c ∈ dy, c.isDigit = true) :
    matchNumTok ['m', 'i', 'n'] (dy ++ ' ' :: 'm' :: 'i' :: 'n' :: T) =
      some (digitsVal dy) := by
  apply matchNumTok_run_found _ _ _ hne hdig
  · intro c hc
    simp only [List.head?_cons, Option.mem_some_iff] at hc
    rw [← hc]
    decide
  · rw [dropWhile_ws_space, dropWhile_ws_stop 'm' _ (by decide)]
    exact matchToken_min _

/-- Evaluation form of `parse_duration` on explicitly listed characters. -/
theorem parse_duration_mk (L : List Char) (h : ¬ L = []) :
    parse_duration (some ⟨L⟩) =
      pyRound2 (((matchNumTok ['h', 'r'] L).getD 0 : ℚ) +
        ((matchNumTok ['m', 'i', 'n'] L).getD 0 : ℚ) / 60) :=
  parse_duration_some_eq ⟨L⟩ h

/-- C3: on text of the shape "[Active for ]X hrs Y mins" (also with the
singular tokens "hr"/"min"), the parsed duration is X + Y/60 rounded to two
decimals, for every decimal numeral X and Y; a quantity whose token is
absent contributes 0; absent and empty text give 0. -/
theorem parse_duration_formula :
    (∀ dx dy : List Char, ¬ dx = [] → ¬ dy = [] →
      (∀ c ∈ dx, c.isDigit = true) → (∀ c ∈ dy, c.isDigit = true) →
      (parse_duration
          (some ⟨"Active for ".data ++ dx ++ " hrs ".data ++ dy ++ " mins".data⟩) =
        pyRound2 ((digitsVal dx : ℚ) + (digitsVal dy : ℚ) / 60)) ∧
      (parse_duration (some ⟨dx ++ " hrs ".data ++ dy ++ " mins".data⟩) =
        pyRound2 ((digitsVal dx : ℚ) + (digitsVal dy : ℚ) / 60)) ∧
      (parse_duration
          (some ⟨"Active for ".data ++ dx ++ " hr ".data ++ dy ++ " min".data⟩) =
        pyRound2 ((digitsVal dx : ℚ) + (digitsVal dy : ℚ) / 60))) ∧
    (∀ dy : List Char, ¬ dy = [] → (∀ c ∈ dy, c.isDigit = true) →
      parse_duration (some ⟨"Active for ".data ++ dy ++ " mins".data⟩) =
        pyRound2 ((digitsVal dy : ℚ) / 60)) ∧
    (∀ dx : List Char, ¬ dx = [] → (∀ c ∈ dx, c.isDigit = true) →
      parse_duration (some ⟨"Active for ".data ++ dx ++ " hrs".data⟩) =
        pyRound2 (digitsVal dx : ℚ)) ∧
    parse_duration none = 0 ∧ parse_duration (some "") = 0 := by
  have hA : "Active for ".data =
      ['A', 'c', 't', 'i', 'v', 'e', ' ', 'f', 'o', 'r', ' '] := rfl
  have hhead : ∀ X : List Char, ∀ c ∈ (' ' :: X).head?, c.isDigit = false := by
    intro X c hc
    simp only [List.head?_cons, Option.mem_some_iff] at hc
    rw [← hc]
    decide
  refine ⟨?_, ?_, ?_, rfl, by simp [parse_duration]⟩
  · intro dx dy hdx hdy hgx hgy
    refine ⟨?_, ?_, ?_⟩
    · rw [parse_duration_mk _ (by rw [hA]; simp)]
      rw [hA, show " hrs ".data = [' ', 'h', 'r', 's', ' '] from rfl,
        show " mins".data = [' ', 'm', 'i', 'n', 's'] from rfl]
      simp only [List.append_assoc]
      rw [matchNumTok_skip_block ['h', 'r'] _ _ (by decide),
        matchNumTok_skip_block ['m', 'i', 'n'] _ _ (by decide),
        show ([' ', 'h', 'r', 's', ' '] : List Char) ++ (dy ++ [' ', 'm', 'i', 'n', 's']) =
          ' ' :: 'h' :: 'r' :: 's' :: ' ' :: (dy ++ [' ', 'm', 'i', 'n', 's']) from rfl,
        matchNumTok_hr_after_digits dx _ hdx hgx,
        matchNumTok_run_skip ['m', 'i', 'n'] dx _ hgx (hhead _)
          (by rw [dropWhile_ws_space, dropWhile_ws_stop 'h' _ (by decide)]
              exact matchToken_false_head 'm' _ 'h' _ (by decide)),
        show (' ' :: 'h' :: 'r' :: 's' :: ' ' :: (dy ++ [' ', 'm', 'i', 'n', 's'])) =
          ([' ', 'h', 'r', 's', ' '] : List Char) ++ (dy ++ [' ', 'm', 'i', 'n', 's']) from rfl,
        matchNumTok_skip_block ['m', 'i', 'n'] _ _ (by decide),
        matchNumTok_min_after_digits dy ['s'] hdy hgy]
      simp
    · rw [parse_duration_mk _ (by cases dx with
        | nil => exact absurd rfl hdx
        | cons c cs => simp)]
      rw [show " hrs ".data = [' ', 'h', 'r', 's', ' '] from rfl,
        show " mins".data = [' ', 'm', 'i', 'n', 's'] from rfl]
      simp only [List.append_assoc]
      rw [show ([' ', 'h', 'r', 's', ' '] : List Char) ++ (dy ++ [' ', 'm', 'i', 'n', 's']) =
          ' ' :: 'h' :: 'r' :: 's' :: ' ' :: (dy ++ [' ', 'm', 'i', 'n', 's']) from rfl,
        matchNumTok_hr_after_digits dx _ hdx hgx,
        matchNumTok_run_skip ['m', 'i', 'n'] dx _ hgx (hhead _)
          (by rw [dropWhile_ws_space, dropWhile_ws_stop 'h' _ (by decide)]
              exact matchToken_false_head 'm' _ 'h' _ (by decide)),
        show (' ' :: 'h' :: 'r' :: 's' :: ' ' :: (dy ++ [' ', 'm', 'i', 'n', 's'])) =
          ([' ', 'h', 'r', 's', ' '] : List Char) ++ (dy ++ [' ', 'm', 'i', 'n', 's']) from rfl,
        matchNumTok_skip_block ['m', 'i', 'n'] _ _ (by decide),
        matchNumTok_min_after_digits dy ['s'] hdy hgy]
      simp
    · rw [parse_duration_mk _ (by rw [hA]; simp)]
      rw [hA, show " hr ".data = [' ', 'h', 'r', ' '] from rfl,
        show " min".data = [' ', 'm', 'i', 'n'] from rfl]
      simp only [List.append_assoc]
      rw [matchNumTok_skip_block ['h', 'r'] _ _ (by decide),
        matchNumTok_skip_block ['m', 'i', 'n'] _ _ (by decide),
        show ([' ', 'h', 'r', ' '] : List Char) ++ (dy ++ [' ', 'm', 'i', 'n']) =
          ' ' :: 'h' :: 'r' :: ' ' :: (dy ++ [' ', 'm', 'i', 'n']) from rfl,
        matchNumTok_hr_after_digits dx _ hdx hgx,
        matchNumTok_run_skip ['m', 'i', 'n'] dx _ hgx (hhead _)
          (by rw [dropWhile_ws_space, dropWhile_ws_stop 'h' _ (by decide)]
              exact matchToken_false_head 'm' _ 'h' _ (by decide)),
        show (' ' :: 'h' :: 'r' :: ' ' :: (dy ++ [' ', 'm', 'i', 'n'])) =
          ([' ', 'h', 'r', ' '] : List Char) ++ (dy ++ [' ', 'm', 'i', 'n']) from rfl,
        matchNumTok_skip_block ['m', 'i', 'n'] _ _ (by decide),
        matchNumTok_min_after_digits dy [] hdy hgy]
      simp
  · intro dy hdy hgy
    rw [parse_duration_mk _ (by rw [hA]; simp)]
    rw [hA, show " mins".data = [' ', 'm', 'i', 'n', 's'] from rfl]
    simp only [List.append_assoc]
    rw [matchNumTok_skip_block ['h', 'r'] _ _ (by decide),
      matchNumTok_skip_block ['m', 'i', 'n'] _ _ (by decide),
      matchNumTok_run_skip ['h', 'r'] dy _ hgy (hhead _)
        (by rw [dropWhile_ws_space, dropWhile_ws_stop 'm' _ (by decide)]
            exact matchToken_false_head 'h' _ 'm' _ (by decide)),
      show matchNumTok ['h', 'r'] [' ', 'm', 'i', 'n', 's'] = none from by decide,
      matchNumTok_min_after_digits dy ['s'] hdy hgy]
    simp
  · intro dx hdx hgx
    rw [parse_duration_mk _ (by rw [hA]; simp)]
    rw [hA, show " hrs".data = [' ', 'h', 'r', 's'] from rfl]
    simp only [List.append_assoc]
    rw [matchNumTok_skip_block ['h', 'r'] _ _ (by decide),
      matchNumTok_skip_block ['m', 'i', 'n'] _ _ (by decide),
      show ([' ', 'h', 'r', 's'] : List Char) = ' ' :: 'h' :: 'r' :: 's' :: [] from rfl,
      matchNumTok_hr_after_digits dx ['s'] hdx hgx,
      matchNumTok_run_skip ['m', 'i', 'n'] dx _ hgx (hhead _)
        (by rw [dropWhile_ws_space, dropWhile_ws_stop 'h' _ (by decide)]
            exact matchToken_false_head 'm' _ 'h' _ (by decide)),
      show matchNumTok ['m', 'i', 'n'] [' ', 'h', 'r', 's'] = none from by decide]
    simp

/-- C3 witness: "Active for 2 hrs 30 mins" parses to round(2 + 30/60, 2),
via `parse_duration_formula`. -/
theorem parse_duration_formula_witness :
    parse_duration
        (some ⟨"Active for ".data ++ ['2'] ++ " hrs ".data ++ ['3', '0'] ++ " mins".data⟩) =
      pyRound2 ((digitsVal ['2'] : ℚ) + (digitsVal ['3', '0'] : ℚ) / 60) :=
  (parse_duration_formula.1 ['2'] ['3', '0'] (by decide) (by decide)
    (by decide) (by decide)).1

/-- C6 (amended): the full word "hours" is not recognized — after a digit
quantity it never matches the token `hrs?`, so it contributes 0 — but the
full word "minutes" IS recognized, because the unanchored token `mins?`
matches its first three letters: "Active for X minutes" parses to
round(X/60, 2), and in particular "Active for 30 minutes" gives 0.5, not
0.0. -/
theorem parse_duration_full_words :
    (∀ dx : List Char, ¬ dx = [] → (∀ c ∈ dx, c.isDigit = true) →
      parse_duration (some ⟨"Active for ".data ++ dx ++ " hours".data⟩) = 0 ∧
      parse_duration (some ⟨"Active for ".data ++ dx ++ " minutes".data⟩) =
        pyRound2 ((digitsVal dx : ℚ) / 60)) ∧
    parse_duration (some "Active for 2 hours") = 0 ∧
    parse_duration (some "Active for 30 minutes") = 1 / 2 := by
  have hA : "Active for ".data =
      ['A', 'c', 't', 'i', 'v', 'e', ' ', 'f', 'o', 'r', ' '] := rfl
  have hhead : ∀ X : List Char, ∀ c ∈ (' ' :: X).head?, c.isDigit = false := by
    intro X c hc
    simp only [List.head?_cons, Option.mem_some_iff] at hc
    rw [← hc]
    decide
  refine ⟨?_, ?_, ?_⟩
  · intro dx hdx hgx
    constructor
    · rw [parse_duration_mk _ (by rw [hA]; simp)]
      rw [hA, show " hours".data = [' ', 'h', 'o', 'u', 'r', 's'] from rfl]
      simp only [List.append_assoc]
      rw [matchNumTok_skip_block ['h', 'r'] _ _ (by decide),
        matchNumTok_skip_block ['m', 'i', 'n'] _ _ (by decide),
        matchNumTok_run_skip ['h', 'r'] dx _ hgx (hhead _)
          (by rw [dropWhile_ws_space, dropWhile_ws_stop 'h' _ (by decide)]
              exact matchToken_hr_ho _),
        matchNumTok_run_skip ['m', 'i', 'n'] dx _ hgx (hhead _)
          (by rw [dropWhile_ws_space, dropWhile_ws_stop 'h' _ (by decide)]
              exact matchToken_false_head 'm' _ 'h' _ (by decide)),
        show matchNumTok ['h', 'r'] [' ', 'h', 'o', 'u', 'r', 's'] = none from by decide,
        show matchNumTok ['m', 'i', 'n'] [' ', 'h', 'o', 'u', 'r', 's'] = none from by decide]
      norm_num [pyRound2, roundHalfEven2]
    · rw [parse_duration_mk _ (by rw [hA]; simp)]
      rw [hA, show " minutes".data = [' ', 'm', 'i', 'n', 'u', 't', 'e', 's'] from rfl]
      simp only [List.append_assoc]
      rw [matchNumTok_skip_block ['h', 'r'] _ _ (by decide),
        matchNumTok_skip_block ['m', 'i', 'n'] _ _ (by decide),
        matchNumTok_run_skip ['h', 'r'] dx _ hgx (hhead _)
          (by rw [dropWhile_ws_space, dropWhile_ws_stop 'm' _ (by decide)]
              exact matchToken_false_head 'h' _ 'm' _ (by decide)),
        show matchNumTok ['h', 'r'] [' ', 'm', 'i', 'n', 'u', 't', 'e', 's'] = none
          from by decide,
        matchNumTok_min_after_digits dx ['u', 't', 'e', 's'] hdx hgx]
      simp
  · rw [parse_duration_some_eq _ (by decide),
      show matchNumTok ['h', 'r'] "Active for 2 hours".data = none from by decide,
      show matchNumTok ['m', 'i', 'n'] "Active for 2 hours".data = none from by decide]
    norm_num [pyRound2, roundHalfEven2]
  · rw [parse_duration_some_eq _ (by decide),
      show matchNumTok ['h', 'r'] "Active for 30 minutes".data = none from by decide,
      show matchNumTok ['m', 'i', 'n'] "Active for 30 minutes".data = some 30
        from by decide]
    norm_num [pyRound2, roundHalfEven2]

/-- C6 counterexample: the claim asserts that a digit quantity followed by
the full word "minutes" contributes 0, but the code parses
"Active for 30 minutes" to 0.5 (its own test suite asserts this value, so
the spec sentence, not the code, is wrong). -/
theorem parse_duration_minutes_recognized :
    parse_duration (some "Active for 30 minutes") = 1 / 2 ∧
    ¬ parse_duration (some "Active for 30 minutes") = 0 := by
  have h : parse_duration (some "Active for 30 minutes") = 1 / 2 := by
    rw [parse_duration_some_eq _ (by decide),
      show matchNumTok ['h', 'r'] "Active for 30 minutes".data = none from by decide,
      show matchNumTok ['m', 'i', 'n'] "Active for 30 minutes".data = some 30
        from by decide]
    norm_num [pyRound2, roundHalfEven2]
  exact ⟨h, by rw [h]; norm_num⟩

/-- C6 witness: "Active for 30 hours" gives 0 while "Active for 30 minutes"
parses via the "min" token, both from `parse_duration_full_words`. -/
theorem parse_duration_full_words_witness :
    parse_duration (some ⟨"Active for ".data ++ ['3', '0'] ++ " hours".data⟩) = 0 ∧
    parse_duration (some ⟨"Active for ".data ++ ['3', '0'] ++ " minutes".data⟩) =
      pyRound2 ((digitsVal ['3', '0'] : ℚ) / 60) :=
  parse_duration_full_words.1 ['3', '0'] (by decide) (by decide)

/-- C2 witness: the shape properties at the spec's concrete three-record
input, via `top_10_ads_shape`. -/
theorem top_10_ads_shape_witness :
    (top_10_ads [⟨some 2, some "image-only"⟩, ⟨some 3, some "video-only"⟩,
        ⟨some 1, some "both"⟩]).length =
      min 10 ([⟨some 2, some "image-only"⟩, ⟨some 3, some "video-only"⟩,
        ⟨some 1, some "both"⟩] : List Ad).length :=
  (top_10_ads_shape _).1

/-- C10 witness: a record with a duration but no media_type key scores with
the 0.5 multiplier, via `proxy_score_missing_media_type`. -/
theorem proxy_score_missing_media_type_witness :
    proxy_score ⟨some 3, none⟩ = 3 * (1 / 2) :=
  proxy_score_missing_media_type.1 3

end AdPipeline
